import Mathlib

/-!
Shallow embedding of the cypress-rtm-plugin coverage-tracking core
(src/core.js, src/tasks.js, src/reports.js, src/constants.js).

JavaScript `Map`s are modelled as association lists preserving insertion
order (`mapSet` replaces in place when the key exists, appends otherwise);
JavaScript `Set`s of strings are modelled as duplicate-free lists in
insertion order (`setAdd`).  JS string truthiness is modelled as being
nonempty.  JS numbers appearing in unguarded divisions are modelled by
`JSNum`, a rational extended with NaN and the two infinities, mirroring
IEEE division by zero on the exact values that occur here.
-/

namespace RTM

/-- Association-list lookup, mirroring `Map.prototype.get` (first binding wins;
well-formed states never hold duplicate keys). -/
def mapGet {α : Type} (m : List (String × α)) (k : String) : Option α :=
  match m with
  | [] => none
  | (k', v) :: rest => if k' == k then some v else mapGet rest k

/-- `Map.prototype.has`. -/
def mapHas {α : Type} (m : List (String × α)) (k : String) : Bool :=
  (mapGet m k).isSome

/-- `Map.prototype.set`: replace in place when the key exists, append otherwise. -/
def mapSet {α : Type} (m : List (String × α)) (k : String) (v : α) : List (String × α) :=
  match m with
  | [] => [(k, v)]
  | (k', v') :: rest => if k' == k then (k, v) :: rest else (k', v') :: mapSet rest k v

/-- `Set.prototype.add` on an insertion-ordered duplicate-free list. -/
def setAdd (s : List String) (x : String) : List String :=
  if s.contains x then s else s ++ [x]

/-- `[...new Set(l)]`: deduplicate keeping the first occurrence of each element. -/
def dedup (l : List String) : List String :=
  l.foldl setAdd []

/-- The set stored for key `k` in a coverage map, empty when absent. -/
def covSet (m : List (String × List String)) (k : String) : List String :=
  (mapGet m k).getD []

/-- Ensure an entry exists for `k` then add `x` to it — the
`if (!cov.has(k)) cov.set(k, new Set()); cov.get(k).add(x)` idiom of
`core.js addTestCase`. -/
def covAdd (m : List (String × List String)) (k : String) (x : String) :
    List (String × List String) :=
  let m1 := if mapHas m k then m else mapSet m k []
  mapSet m1 k (setAdd (covSet m1 k) x)

/-- src/constants.js REQUIREMENT_TYPES values. -/
def REQUIREMENT_TYPES : List String :=
  ["functional", "security", "performance", "accessibility", "compliance",
   "technical", "infrastructure"]

/-- src/constants.js TEST_TYPES values. -/
def TEST_TYPES : List String :=
  ["unit", "integration", "e2e", "api", "performance", "security",
   "accessibility", "smoke"]

/-- src/constants.js REQUIREMENT_PRIORITIES values. -/
def REQUIREMENT_PRIORITIES : List String :=
  ["p0-critical", "p1-high", "p2-medium", "p3-low"]

/-- src/constants.js TEST_PRIORITIES values. -/
def TEST_PRIORITIES : List String :=
  ["p1-must-run", "p2-high-value", "p3-nice-to-have", "p4-edge-cases"]

/-- A requirement record (the fields the core reads). JS-absent string fields
are modelled as the empty string, which is exactly JS falsiness for strings. -/
structure Requirement where
  id : String
  title : String
  type : String
  priority : String
deriving DecidableEq

/-- A user-story record (the fields the core reads). -/
structure UserStory where
  id : String
  title : String
deriving DecidableEq

/-- A test-case record (the fields the core reads). `none` models an absent
(JS `undefined`) list field; `some []` models a present empty array. -/
structure TestCase where
  id : String
  title : String
  type : String
  priority : String
  requirements : Option (List String)
  userStories : Option (List String)
  tags : Option (List String)
  automated : Bool
  suiteId : Option String
deriving DecidableEq

/-- A suite record (the fields `applySuiteToTests` reads). -/
structure Suite where
  id : String
  requirements : Option (List String)
  userStories : Option (List String)
  tags : Option (List String)
deriving DecidableEq

/-- The typed error of core.js (`class RTMError extends Error`). -/
structure RTMError where
  message : String
  code : String
deriving DecidableEq

/-- The mutable state of one `CypressRTM` instance: the four entity maps and
the coverage index (`this.coverage.requirements`, `this.coverage.stories`,
`this.coverage.types.requirements`, `this.coverage.types.tests`). -/
structure RTMState where
  requirements : List (String × Requirement)
  userStories : List (String × UserStory)
  testCases : List (String × TestCase)
  suites : List (String × Suite)
  covRequirements : List (String × List String)
  covStories : List (String × List String)
  covTypesRequirements : List (String × List String)
  covTypesTests : List (String × List String)
deriving DecidableEq

/-- A freshly constructed `CypressRTM` (all maps empty). -/
def emptyState : RTMState :=
  ⟨[], [], [], [], [], [], [], []⟩

/-- core.js `validateRequirement`: required fields truthy, type and priority
in their enums. -/
def validateRequirement (r : Requirement) : Bool :=
  if r.id == "" || r.title == "" || r.type == "" || r.priority == "" then false
  else if !(REQUIREMENT_TYPES.contains r.type) then false
  else if !(REQUIREMENT_PRIORITIES.contains r.priority) then false
  else true

/-- core.js `validateTestCase`: required fields truthy, type and priority in
their enums, and, when a `requirements` array is present, every referenced
requirement id exists in the store.  The `userStories` field is not examined. -/
def validateTestCase (st : RTMState) (tc : TestCase) : Bool :=
  if tc.id == "" || tc.title == "" || tc.type == "" || tc.priority == "" then false
  else if !(TEST_TYPES.contains tc.type) then false
  else if !(TEST_PRIORITIES.contains tc.priority) then false
  else
    match tc.requirements with
    | some reqs => reqs.all (fun reqId => mapHas st.requirements reqId)
    | none => true

/-- One iteration of the `testCase.requirements.forEach` loop of
core.js `addTestCase`: record requirement coverage and, when the requirement
exists and has a truthy type, requirement-type coverage. -/
def coverReqStep (tcId : String) (s : RTMState) (reqId : String) : RTMState :=
  let s1 := { s with covRequirements := covAdd s.covRequirements reqId tcId }
  match mapGet s.requirements reqId with
  | some req =>
      if req.type != "" then
        { s1 with covTypesRequirements := covAdd s1.covTypesRequirements req.type tcId }
      else s1
  | none => s1

/-- One iteration of the `testCase.userStories.forEach` loop of
core.js `addTestCase`. -/
def coverStoryStep (tcId : String) (s : RTMState) (storyId : String) : RTMState :=
  { s with covStories := covAdd s.covStories storyId tcId }

/-- core.js `addTestCase`: throw `INVALID_TEST_CASE` when validation fails
(before any mutation), otherwise store the record and update the four
coverage maps. -/
def addTestCase (st : RTMState) (tc : TestCase) : Except RTMError RTMState :=
  if !(validateTestCase st tc) then
    Except.error ⟨"Invalid test case structure", "INVALID_TEST_CASE"⟩
  else
    let st1 := { st with testCases := mapSet st.testCases tc.id tc }
    let st2 := (tc.requirements.getD []).foldl (coverReqStep tc.id) st1
    let st3 := (tc.userStories.getD []).foldl (coverStoryStep tc.id) st2
    Except.ok { st3 with covTypesTests := covAdd st3.covTypesTests tc.type tc.id }

/-- The state a caller observes after `addTestCase`: the JS throw happens
before any mutation of `this`, so on error the instance is unchanged. -/
def addTestCaseState (st : RTMState) (tc : TestCase) : RTMState :=
  match addTestCase st tc with
  | Except.ok st' => st'
  | Except.error _ => st

/-- The exact error core.js `addTestCase` throws on validation failure. -/
def invalidTestCaseError : RTMError :=
  ⟨"Invalid test case structure", "INVALID_TEST_CASE"⟩

/-- tasks.js `validateRequirement` (the `rtm:validateRequirement` task):
returns whether the id exists in the requirement store and, on success,
lazily seeds an empty coverage entry for it when none exists.  The source
wraps the body in try/catch returning `false`; nothing in the body can
throw, so the embedding is a total function — it never throws. -/
def tasksValidateRequirement (st : RTMState) (reqId : String) : Bool × RTMState :=
  let ex := mapHas st.requirements reqId
  if ex && !(mapHas st.covRequirements reqId) then
    (ex, { st with covRequirements := mapSet st.covRequirements reqId [] })
  else
    (ex, st)

/-- tasks.js `validateStory` (the `rtm:validateStory` task), the story
analogue of `tasksValidateRequirement`. -/
def tasksValidateStory (st : RTMState) (storyId : String) : Bool × RTMState :=
  let ex := mapHas st.userStories storyId
  if ex && !(mapHas st.covStories storyId) then
    (ex, { st with covStories := mapSet st.covStories storyId [] })
  else
    (ex, st)

/-- The enhanced record tasks.js `addTestCase` builds before delegating:
`{...testCase, type: testCase.type || TEST_TYPES.E2E,
priority: testCase.priority || TEST_PRIORITIES.P1, automated: true}`.
A falsy (absent or empty) type or priority is replaced by the default;
`automated` is unconditionally overwritten with `true`. -/
def enhanceTestCase (tc : TestCase) : TestCase :=
  { tc with
    type := if tc.type == "" then "e2e" else tc.type
    priority := if tc.priority == "" then "p1-must-run" else tc.priority
    automated := true }

/-- tasks.js `addTestCase` (the `rtm:addTestCase` task): enhance, then call
the core `addTestCase`; errors propagate to the host. -/
def tasksAddTestCase (st : RTMState) (tc : TestCase) : Except RTMError RTMState :=
  addTestCase st (enhanceTestCase tc)

/-- The merged test case `applySuiteToTests` writes back:
each list field becomes `[...new Set([...(test.f || []), ...(suite.f || [])])]`. -/
def mergeSuiteTest (t : TestCase) (suite : Suite) : TestCase :=
  { t with
    requirements := some (dedup (t.requirements.getD [] ++ suite.requirements.getD []))
    userStories := some (dedup (t.userStories.getD [] ++ suite.userStories.getD []))
    tags := some (dedup (t.tags.getD [] ++ suite.tags.getD [])) }

/-- tasks.js `applySuiteToTests`: `SUITE_NOT_FOUND` when the suite id is
unknown; otherwise every test case whose `suiteId` equals the given id is
replaced by its suite-merged version.  Only `testCases` is written; the
coverage index is not touched. -/
def applySuiteToTests (st : RTMState) (suiteId : String) : Except RTMError RTMState :=
  match mapGet st.suites suiteId with
  | none => Except.error ⟨"Suite " ++ suiteId ++ " not found", "SUITE_NOT_FOUND"⟩
  | some suite =>
      let newTests := st.testCases.foldl
        (fun acc p =>
          if p.2.suiteId = some suiteId then mapSet acc p.1 (mergeSuiteTest p.2 suite)
          else acc)
        st.testCases
      Except.ok { st with testCases := newTests }

/-- A JS number as produced by the divisions in this code base: an exact
rational, or NaN / ±Infinity from division by zero. -/
inductive JSNum where
  | num : ℚ → JSNum
  | nan : JSNum
  | inf : JSNum
  | neginf : JSNum
deriving DecidableEq

/-- IEEE-style division on exact operands: `0/0` is NaN, `±x/0` is ±Infinity,
otherwise exact. -/
def jsDiv (a b : ℚ) : JSNum :=
  if b = 0 then
    if a = 0 then JSNum.nan else if a > 0 then JSNum.inf else JSNum.neginf
  else JSNum.num (a / b)

/-- Multiplication by 100 lifted to `JSNum` (NaN and infinities absorb). -/
def jsMul100 : JSNum → JSNum
  | JSNum.num q => JSNum.num (q * 100)
  | JSNum.nan => JSNum.nan
  | JSNum.inf => JSNum.inf
  | JSNum.neginf => JSNum.neginf

/-- One `{total, covered, percentage}` block of tasks.js `getCoverage`,
whose percentage is an unguarded JS division. -/
structure CoverageBlock where
  total : ℕ
  covered : ℕ
  percentage : JSNum
deriving DecidableEq

/-- tasks.js `getCoverage` (the `rtm:getCoverage` task): requirement block and
story block, each computing `(covered / total) * 100` with no zero guard. -/
def tasksGetCoverage (st : RTMState) : CoverageBlock × CoverageBlock :=
  (⟨st.requirements.length, st.covRequirements.length,
    jsMul100 (jsDiv (st.covRequirements.length : ℚ) (st.requirements.length : ℚ))⟩,
   ⟨st.userStories.length, st.covStories.length,
    jsMul100 (jsDiv (st.covStories.length : ℚ) (st.userStories.length : ℚ))⟩)

/-- One `{total, covered, percentage}` block of the guarded statistics
(core.js `getCoverageStats`, reports.js): the guard makes the percentage a
plain rational. -/
structure StatsBlock where
  total : ℕ
  covered : ℕ
  percentage : ℚ
deriving DecidableEq

/-- core.js `getCoverageStats`: the requirement and story blocks, each with
the `size ? (covered/size)*100 : 0` ternary guard. -/
def getCoverageStats (st : RTMState) : StatsBlock × StatsBlock :=
  (⟨st.requirements.length, st.covRequirements.length,
    if st.requirements.length ≠ 0 then
      ((st.covRequirements.length : ℚ) / (st.requirements.length : ℚ)) * 100
    else 0⟩,
   ⟨st.userStories.length, st.covStories.length,
    if st.userStories.length ≠ 0 then
      ((st.covStories.length : ℚ) / (st.userStories.length : ℚ)) * 100
    else 0⟩)

/-- reports.js `calculatePercentage`: 0 on a zero denominator, otherwise
`(numerator / denominator) * 100`. -/
def calculatePercentage (numerator denominator : ℚ) : ℚ :=
  if denominator = 0 then 0 else (numerator / denominator) * 100

/-- The `{total, covered}` accumulator of reports.js
`calculatePriorityCoverage`. -/
structure PriorityStats where
  total : ℕ
  covered : ℕ
deriving DecidableEq

/-- One finished `{total, covered, percentage}` entry of
`calculatePriorityCoverage`. -/
structure PriorityEntry where
  total : ℕ
  covered : ℕ
  percentage : ℚ
deriving DecidableEq

/-- One iteration of the `this.rtm.requirements.forEach` loop of
`calculatePriorityCoverage`: ensure a stats record for the requirement's
priority, increment `total`, and increment `covered` when the coverage index
HAS an entry for the requirement (empty or not). -/
def priorityStep (st : RTMState) (acc : List (String × PriorityStats))
    (p : String × Requirement) : List (String × PriorityStats) :=
  let acc1 := if mapHas acc p.2.priority then acc else mapSet acc p.2.priority ⟨0, 0⟩
  let stats := (mapGet acc1 p.2.priority).getD ⟨0, 0⟩
  mapSet acc1 p.2.priority
    ⟨stats.total + 1,
     if mapHas st.covRequirements p.1 then stats.covered + 1 else stats.covered⟩

/-- The `{...stats, percentage}` record the final map of
`calculatePriorityCoverage` builds from one `{total, covered}` accumulator. -/
def priorityEntryOf (s : PriorityStats) : PriorityEntry :=
  ⟨s.total, s.covered, calculatePercentage (s.covered : ℚ) (s.total : ℚ)⟩

/-- reports.js `calculatePriorityCoverage`: fold the requirements into
per-priority `{total, covered}` stats, then attach the guarded percentage. -/
def calculatePriorityCoverage (st : RTMState) : List (String × PriorityEntry) :=
  (st.requirements.foldl (priorityStep st) []).map (fun p => (p.1, priorityEntryOf p.2))

/-- Number of stored requirements with the given priority. -/
def priorityTotal (st : RTMState) (p : String) : ℕ :=
  st.requirements.countP (fun q => q.2.priority == p)

/-- Number of stored requirements with the given priority that have a
coverage entry (possibly empty) in the index. -/
def priorityCovered (st : RTMState) (p : String) : ℕ :=
  st.requirements.countP (fun q => q.2.priority == p && mapHas st.covRequirements q.1)

/-- A gap record of core.js `getCriticalGaps` (`{type, requirementId, title}`). -/
structure Gap where
  type : String
  requirementId : String
  title : String
deriving DecidableEq

/-- Whether some test case covering the requirement has type `security`
(the inner `Array.from(tests).some(...)` of `getCriticalGaps`). -/
def hasSecurityTest (st : RTMState) (reqId : String) : Bool :=
  (covSet st.covRequirements reqId).any (fun testId =>
    match mapGet st.testCases testId with
    | some tc => tc.type == "security"
    | none => false)

/-- core.js `getCriticalGaps`: first every `p0-critical` requirement with no
coverage entry, then every `security` requirement with no covering security
test. -/
def getCriticalGaps (st : RTMState) : List Gap :=
  let p0Gaps := st.requirements.filterMap (fun p =>
    if p.2.priority == "p0-critical" && !(mapHas st.covRequirements p.1) then
      some ⟨"uncovered_critical_requirement", p.1, p.2.title⟩
    else none)
  let securityGaps := st.requirements.filterMap (fun p =>
    if p.2.type == "security" then
      if !(hasSecurityTest st p.1) then
        some ⟨"security_requirement_no_security_test", p.1, p.2.title⟩
      else none
    else none)
  p0Gaps ++ securityGaps

/-- The duplicate-freedom invariant of the coverage index: every stored
coverage set, being a JS `Set`, holds each test-case id at most once. -/
def CovNodup (st : RTMState) : Prop :=
  (∀ p ∈ st.covRequirements, p.2.Nodup) ∧
  (∀ p ∈ st.covStories, p.2.Nodup) ∧
  (∀ p ∈ st.covTypesRequirements, p.2.Nodup) ∧
  (∀ p ∈ st.covTypesTests, p.2.Nodup)

instance (st : RTMState) : Decidable (CovNodup st) := by
  unfold CovNodup; infer_instance

/-! ### Concrete fixtures used to evaluate the operations -/

/-- A p0-critical functional requirement. -/
def reqFunc : Requirement := ⟨"REQ-001", "Login works", "functional", "p0-critical"⟩

/-- A p1-high security requirement. -/
def reqSec : Requirement := ⟨"REQ-002", "Data is encrypted", "security", "p1-high"⟩

/-- A p1-high functional requirement. -/
def reqHigh : Requirement := ⟨"REQ-003", "Search works", "functional", "p1-high"⟩

/-- A user story. -/
def usOne : UserStory := ⟨"US-001", "As a user I log in"⟩

/-- A store loaded with two requirements and one story, nothing else. -/
def baseState : RTMState :=
  ⟨[("REQ-001", reqFunc), ("REQ-002", reqSec)], [("US-001", usOne)], [], [], [], [], [], []⟩

/-- A valid test case covering `REQ-001` and `US-001`. -/
def tcMain : TestCase :=
  ⟨"TC-001", "Checks login", "e2e", "p1-must-run", some ["REQ-001"], some ["US-001"],
   none, true, none⟩

/-- A test case with a falsy (missing) title: schema-invalid. -/
def tcMissingTitle : TestCase :=
  ⟨"TC-900", "", "e2e", "p1-must-run", none, none, none, false, none⟩

/-- A valid test case referencing the nonexistent user story `US-404`. -/
def tcGhostStory : TestCase :=
  ⟨"TC-002", "Checks signup", "e2e", "p1-must-run", some ["REQ-001"], some ["US-404"],
   none, true, none⟩

/-- A suite contributing `REQ-001` and the `regression` tag. -/
def suiteTS : Suite := ⟨"TS-001", some ["REQ-001"], none, some ["regression"]⟩

/-- A test case registered under suite `TS-001` with its own requirement and tag. -/
def tcSmoke : TestCase :=
  ⟨"TC-010", "Smoke path", "e2e", "p1-must-run", some ["REQ-002"], none, some ["smoke"],
   true, some "TS-001"⟩

/-- A store holding suite `TS-001`, the test case under it, and a nonempty
coverage index. -/
def suiteState : RTMState :=
  ⟨[], [], [("TC-010", tcSmoke)], [("TS-001", suiteTS)],
   [("REQ-002", ["TC-010"])], [], [], [("e2e", ["TC-010"])]⟩

/-- The state produced by applying suite `TS-001` over `suiteState`. -/
def suiteStateApplied : RTMState :=
  match applySuiteToTests suiteState "TS-001" with
  | Except.ok s => s
  | Except.error _ => suiteState

/-- A store with one p1-high requirement whose coverage entry was merely
seeded empty (as a successful existence check does). -/
def seededState : RTMState :=
  ⟨[("REQ-003", reqHigh)], [], [], [], [("REQ-003", [])], [], [], []⟩

/-- A candidate with falsy type and priority and `automated: false`, as a
host caller may submit it to the `rtm:addTestCase` task. -/
def tcNoType : TestCase :=
  ⟨"TC-020", "Implicit metadata", "", "", none, none, none, false, none⟩

/-! ### Basic lemmas about the map and set models -/

theorem mapGet_mapSet_self {α : Type} (m : List (String × α)) (k : String) (v : α) :
    mapGet (mapSet m k v) k = some v := by
  induction m with
  | nil => simp [mapSet, mapGet]
  | cons p rest ih =>
      obtain ⟨k', v'⟩ := p
      by_cases h : k' = k
      · subst h; simp [mapSet, mapGet]
      · simp [mapSet, mapGet, h, ih]

theorem mapGet_mapSet_ne {α : Type} (m : List (String × α)) {k' k : String} (v : α)
    (h : k' ≠ k) : mapGet (mapSet m k' v) k = mapGet m k := by
  induction m with
  | nil => simp [mapSet, mapGet, h]
  | cons p rest ih =>
      obtain ⟨k₀, v₀⟩ := p
      by_cases h0 : k₀ = k'
      · subst h0; simp [mapSet, mapGet, h]
      · simp [mapSet, mapGet, h0, ih]

theorem mapGet_cons_self {α : Type} (k : String) (v : α) (rest : List (String × α)) :
    mapGet ((k, v) :: rest) k = some v := by
  show (if k == k then some v else mapGet rest k) = some v
  simp

theorem mapGet_cons_ne {α : Type} {k' k : String} (v : α) (rest : List (String × α))
    (h : k' ≠ k) : mapGet ((k', v) :: rest) k = mapGet rest k := by
  have hb : ¬((k' == k) = true) := by simpa using h
  show (if k' == k then some v else mapGet rest k) = mapGet rest k
  rw [if_neg hb]

theorem mapHas_mapSet_self {α : Type} (m : List (String × α)) (k : String) (v : α) :
    mapHas (mapSet m k v) k = true := by
  simp [mapHas, mapGet_mapSet_self]

theorem mapHas_mapSet_mono {α : Type} {m : List (String × α)} {k k' : String} (v : α)
    (h : mapHas m k = true) : mapHas (mapSet m k' v) k = true := by
  by_cases hk : k' = k
  · subst hk; exact mapHas_mapSet_self m k' v
  · rw [mapHas, mapGet_mapSet_ne m v hk]; exact h

theorem length_mapSet {α : Type} (m : List (String × α)) (k : String) (v : α) :
    (mapSet m k v).length = if mapHas m k then m.length else m.length + 1 := by
  induction m with
  | nil => simp [mapSet, mapHas, mapGet]
  | cons p rest ih =>
      obtain ⟨k', v'⟩ := p
      by_cases h : k' = k
      · subst h; simp [mapSet, mapHas, mapGet]
      · simp only [mapSet, mapHas, mapGet, beq_iff_eq, h, if_false, List.length_cons, ih]
        by_cases hr : mapHas rest k <;> simp [mapHas] at hr <;> simp [hr]

theorem mem_mapSet {α : Type} {m : List (String × α)} {k : String} {v : α}
    {p : String × α} (h : p ∈ mapSet m k v) : p = (k, v) ∨ p ∈ m := by
  induction m with
  | nil => simpa [mapSet] using h
  | cons q rest ih =>
      obtain ⟨k', v'⟩ := q
      by_cases hk : k' = k
      · subst hk
        simp only [mapSet, beq_self_eq_true, if_true, List.mem_cons] at h
        rcases h with h | h
        · exact Or.inl h
        · exact Or.inr (List.mem_cons_of_mem _ h)
      · simp only [mapSet, beq_iff_eq, hk, if_false, List.mem_cons] at h
        rcases h with h | h
        · exact Or.inr (by simp [h])
        · rcases ih h with h' | h'
          · exact Or.inl h'
          · exact Or.inr (List.mem_cons_of_mem _ h')

theorem mapGet_mem {α : Type} {m : List (String × α)} {k : String} {v : α}
    (h : mapGet m k = some v) : (k, v) ∈ m := by
  induction m with
  | nil => simp [mapGet] at h
  | cons q rest ih =>
      obtain ⟨k', v'⟩ := q
      by_cases hk : k' = k
      · subst hk
        simp only [mapGet, beq_self_eq_true, if_true, Option.some.injEq] at h
        simp [h]
      · simp only [mapGet, beq_iff_eq, hk, if_false] at h
        exact List.mem_cons_of_mem _ (ih h)

theorem mem_setAdd {s : List String} {x y : String} :
    y ∈ setAdd s x ↔ y ∈ s ∨ y = x := by
  unfold setAdd
  by_cases h : x ∈ s
  · have hc : s.contains x = true := by simpa using h
    rw [if_pos hc]
    constructor
    · exact Or.inl
    · rintro (hy | rfl)
      · exact hy
      · exact h
  · have hc : ¬(s.contains x = true) := by simpa using h
    rw [if_neg hc]
    simp

theorem setAdd_nodup {s : List String} {x : String} (h : s.Nodup) :
    (setAdd s x).Nodup := by
  unfold setAdd
  by_cases hm : x ∈ s
  · have hc : s.contains x = true := by simpa using hm
    rw [if_pos hc]
    exact h
  · have hc : ¬(s.contains x = true) := by simpa using hm
    rw [if_neg hc]
    simp [List.nodup_append, h, hm]

theorem foldl_setAdd_spec (l : List String) :
    ∀ acc : List String, ∃ t, l.foldl setAdd acc = acc ++ t ∧ t.Sublist l ∧
      ∀ x, (x ∈ l.foldl setAdd acc ↔ x ∈ acc ∨ x ∈ l) := by
  induction l with
  | nil => intro acc; exact ⟨[], by simp, by simp, by simp⟩
  | cons a l ih =>
      intro acc
      have hstep : setAdd acc a = acc ++ (if a ∈ acc then [] else [a]) := by
        unfold setAdd
        by_cases h : a ∈ acc
        · have hc : acc.contains a = true := by simpa using h
          rw [if_pos hc, if_pos h]
          simp
        · have hc : ¬(acc.contains a = true) := by simpa using h
          rw [if_neg hc, if_neg h]
      obtain ⟨t, ht, hsub, hmem⟩ := ih (setAdd acc a)
      refine ⟨(if a ∈ acc then [] else [a]) ++ t, ?_, ?_, ?_⟩
      · rw [List.foldl_cons, ht, hstep, List.append_assoc]
      · have h1 : (if a ∈ acc then [] else [a]).Sublist [a] := by
          by_cases h : a ∈ acc <;> simp [h]
        simpa using List.Sublist.append h1 hsub
      · intro x
        simp only [List.foldl_cons, hmem x, mem_setAdd, List.mem_cons]
        constructor
        · rintro ((hx | rfl) | hx)
          · exact Or.inl hx
          · exact Or.inr (Or.inl rfl)
          · exact Or.inr (Or.inr hx)
        · rintro (hx | rfl | hx)
          · exact Or.inl (Or.inl hx)
          · exact Or.inl (Or.inr rfl)
          · exact Or.inr hx

theorem foldl_setAdd_nodup (l : List String) :
    ∀ acc : List String, acc.Nodup → (l.foldl setAdd acc).Nodup := by
  induction l with
  | nil => intro acc h; simpa using h
  | cons a l ih =>
      intro acc h
      simpa using ih (setAdd acc a) (setAdd_nodup h)

theorem dedup_nodup (l : List String) : (dedup l).Nodup :=
  foldl_setAdd_nodup l [] List.nodup_nil

theorem mem_dedup (l : List String) (x : String) : x ∈ dedup l ↔ x ∈ l := by
  obtain ⟨t, _, _, hmem⟩ := foldl_setAdd_spec l []
  simpa [dedup] using hmem x

theorem dedup_sublist (l : List String) : (dedup l).Sublist l := by
  obtain ⟨t, ht, hsub, _⟩ := foldl_setAdd_spec l []
  simpa [dedup, ht] using hsub

theorem mem_covSet_mapHas {m : List (String × List String)} {k y : String}
    (h : y ∈ covSet m k) : mapHas m k = true := by
  unfold covSet at h
  unfold mapHas
  cases hm : mapGet m k with
  | none => rw [hm] at h; simp at h
  | some s => simp

theorem covSet_nodup {m : List (String × List String)}
    (hm : ∀ p ∈ m, p.2.Nodup) (k : String) : (covSet m k).Nodup := by
  unfold covSet
  cases hg : mapGet m k with
  | none => simp
  | some s => simpa using hm _ (mapGet_mem hg)

theorem covSet_covAdd_self (m : List (String × List String)) (k x : String) :
    covSet (covAdd m k x) k = setAdd (covSet m k) x := by
  unfold covAdd
  by_cases h : mapHas m k
  · simp only [h, if_true]
    unfold covSet
    rw [mapGet_mapSet_self]
    rfl
  · simp only [h, Bool.false_eq_true, if_false]
    unfold covSet
    rw [mapGet_mapSet_self, mapGet_mapSet_self]
    unfold mapHas at h
    cases hg : mapGet m k with
    | none => simp
    | some s => rw [hg] at h; simp at h

theorem covSet_covAdd_ne (m : List (String × List String)) {k' k : String} (x : String)
    (h : k' ≠ k) : covSet (covAdd m k' x) k = covSet m k := by
  unfold covAdd covSet
  by_cases hh : mapHas m k'
  · simp only [hh, if_true]
    rw [mapGet_mapSet_ne _ _ h]
  · simp only [hh, Bool.false_eq_true, if_false]
    rw [mapGet_mapSet_ne _ _ h, mapGet_mapSet_ne _ _ h]

theorem mapHas_covAdd_self (m : List (String × List String)) (k x : String) :
    mapHas (covAdd m k x) k = true := by
  unfold covAdd
  by_cases h : mapHas m k <;> simp [h, mapHas_mapSet_self]

theorem mapHas_covAdd_mono {m : List (String × List String)} {k : String} (k' x : String)
    (h : mapHas m k = true) : mapHas (covAdd m k' x) k = true := by
  by_cases hk : k' = k
  · subst hk; exact mapHas_covAdd_self m k' x
  · unfold covAdd
    by_cases hh : mapHas m k'
    · simp only [hh, if_true]
      exact mapHas_mapSet_mono _ h
    · simp only [hh, Bool.false_eq_true, if_false]
      exact mapHas_mapSet_mono _ (mapHas_mapSet_mono _ h)

theorem mem_covSet_covAdd_self (m : List (String × List String)) (k x : String) :
    x ∈ covSet (covAdd m k x) k := by
  rw [covSet_covAdd_self]
  exact mem_setAdd.2 (Or.inr rfl)

theorem mem_covSet_covAdd_mono {m : List (String × List String)} {k y : String}
    (k' x : String) (h : y ∈ covSet m k) : y ∈ covSet (covAdd m k' x) k := by
  by_cases hk : k' = k
  · subst hk
    rw [covSet_covAdd_self]
    exact mem_setAdd.2 (Or.inl h)
  · rwa [covSet_covAdd_ne _ _ hk]

theorem covAdd_nodup {m : List (String × List String)}
    (hm : ∀ p ∈ m, p.2.Nodup) (k x : String) :
    ∀ p ∈ covAdd m k x, p.2.Nodup := by
  have hm1 : ∀ p ∈ (if mapHas m k then m else mapSet m k []), p.2.Nodup := by
    by_cases h : mapHas m k
    · simpa [h] using hm
    · simp only [h, Bool.false_eq_true, if_false]
      intro p hp
      rcases mem_mapSet hp with rfl | hp'
      · simp
      · exact hm _ hp'
  intro p hp
  unfold covAdd at hp
  rcases mem_mapSet hp with rfl | hp'
  · exact setAdd_nodup (covSet_nodup hm1 k)
  · exact hm1 _ hp'

/-! ### Structural lemmas about the addTestCase coverage loops -/

theorem coverReqStep_requirements (tid : String) (s : RTMState) (r : String) :
    (coverReqStep tid s r).requirements = s.requirements := by
  unfold coverReqStep
  cases mapGet s.requirements r with
  | none => rfl
  | some req =>
      by_cases h : (req.type != "") = true <;> simp [h]

theorem coverReqStep_testCases (tid : String) (s : RTMState) (r : String) :
    (coverReqStep tid s r).testCases = s.testCases := by
  unfold coverReqStep
  cases mapGet s.requirements r with
  | none => rfl
  | some req =>
      by_cases h : (req.type != "") = true <;> simp [h]

theorem coverReqStep_covStories (tid : String) (s : RTMState) (r : String) :
    (coverReqStep tid s r).covStories = s.covStories := by
  unfold coverReqStep
  cases mapGet s.requirements r with
  | none => rfl
  | some req =>
      by_cases h : (req.type != "") = true <;> simp [h]

theorem coverReqStep_covTypesTests (tid : String) (s : RTMState) (r : String) :
    (coverReqStep tid s r).covTypesTests = s.covTypesTests := by
  unfold coverReqStep
  cases mapGet s.requirements r with
  | none => rfl
  | some req =>
      by_cases h : (req.type != "") = true <;> simp [h]

theorem coverReqStep_covRequirements (tid : String) (s : RTMState) (r : String) :
    (coverReqStep tid s r).covRequirements = covAdd s.covRequirements r tid := by
  unfold coverReqStep
  cases mapGet s.requirements r with
  | none => rfl
  | some req =>
      by_cases h : (req.type != "") = true <;> simp [h]

theorem coverReqStep_covTypesRequirements_nodup (tid : String) (s : RTMState) (r : String)
    (h : ∀ p ∈ s.covTypesRequirements, p.2.Nodup) :
    ∀ p ∈ (coverReqStep tid s r).covTypesRequirements, p.2.Nodup := by
  unfold coverReqStep
  cases mapGet s.requirements r with
  | none => simpa using h
  | some req =>
      by_cases hb : (req.type != "") = true
      · simpa [hb] using covAdd_nodup h req.type tid
      · simpa [hb] using h

theorem reqFold_requirements (tid : String) (l : List String) :
    ∀ s : RTMState, (l.foldl (coverReqStep tid) s).requirements = s.requirements := by
  induction l with
  | nil => intro s; rfl
  | cons r l ih =>
      intro s
      rw [List.foldl_cons, ih, coverReqStep_requirements]

theorem reqFold_testCases (tid : String) (l : List String) :
    ∀ s : RTMState, (l.foldl (coverReqStep tid) s).testCases = s.testCases := by
  induction l with
  | nil => intro s; rfl
  | cons r l ih =>
      intro s
      rw [List.foldl_cons, ih, coverReqStep_testCases]

theorem reqFold_covStories (tid : String) (l : List String) :
    ∀ s : RTMState, (l.foldl (coverReqStep tid) s).covStories = s.covStories := by
  induction l with
  | nil => intro s; rfl
  | cons r l ih =>
      intro s
      rw [List.foldl_cons, ih, coverReqStep_covStories]

theorem reqFold_covTypesTests (tid : String) (l : List String) :
    ∀ s : RTMState, (l.foldl (coverReqStep tid) s).covTypesTests = s.covTypesTests := by
  induction l with
  | nil => intro s; rfl
  | cons r l ih =>
      intro s
      rw [List.foldl_cons, ih, coverReqStep_covTypesTests]

theorem reqFold_covRequirements_monoMem (tid : String) (l : List String) :
    ∀ (s : RTMState) (y k : String), y ∈ covSet s.covRequirements k →
      y ∈ covSet (l.foldl (coverReqStep tid) s).covRequirements k := by
  induction l with
  | nil => intro s y k h; simpa using h
  | cons r l ih =>
      intro s y k h
      rw [List.foldl_cons]
      refine ih _ y k ?_
      rw [coverReqStep_covRequirements]
      exact mem_covSet_covAdd_mono r tid h

theorem reqFold_covRequirements_self (tid : String) (l : List String) :
    ∀ (s : RTMState) (r : String), r ∈ l →
      tid ∈ covSet (l.foldl (coverReqStep tid) s).covRequirements r := by
  induction l with
  | nil => intro s r h; simp at h
  | cons r0 l ih =>
      intro s r h
      rw [List.foldl_cons]
      rcases List.mem_cons.1 h with rfl | h'
      · refine reqFold_covRequirements_monoMem tid l _ tid r ?_
        rw [coverReqStep_covRequirements]
        exact mem_covSet_covAdd_self _ r tid
      · exact ih _ r h'

theorem reqFold_nodup (tid : String) (l : List String) :
    ∀ s : RTMState,
      (∀ p ∈ s.covRequirements, p.2.Nodup) →
      (∀ p ∈ s.covTypesRequirements, p.2.Nodup) →
      (∀ p ∈ (l.foldl (coverReqStep tid) s).covRequirements, p.2.Nodup) ∧
      (∀ p ∈ (l.foldl (coverReqStep tid) s).covTypesRequirements, p.2.Nodup) := by
  induction l with
  | nil => intro s h1 h2; exact ⟨h1, h2⟩
  | cons r l ih =>
      intro s h1 h2
      rw [List.foldl_cons]
      refine ih _ ?_ ?_
      · rw [coverReqStep_covRequirements]
        exact covAdd_nodup h1 r tid
      · exact coverReqStep_covTypesRequirements_nodup tid s r h2

theorem storyFold_requirements (tid : String) (l : List String) :
    ∀ s : RTMState, (l.foldl (coverStoryStep tid) s).requirements = s.requirements := by
  induction l with
  | nil => intro s; rfl
  | cons y l ih => intro s; rw [List.foldl_cons]; exact ih _

theorem storyFold_testCases (tid : String) (l : List String) :
    ∀ s : RTMState, (l.foldl (coverStoryStep tid) s).testCases = s.testCases := by
  induction l with
  | nil => intro s; rfl
  | cons y l ih => intro s; rw [List.foldl_cons]; exact ih _

theorem storyFold_covRequirements (tid : String) (l : List String) :
    ∀ s : RTMState, (l.foldl (coverStoryStep tid) s).covRequirements = s.covRequirements := by
  induction l with
  | nil => intro s; rfl
  | cons y l ih => intro s; rw [List.foldl_cons]; exact ih _

theorem storyFold_covTypesRequirements (tid : String) (l : List String) :
    ∀ s : RTMState,
      (l.foldl (coverStoryStep tid) s).covTypesRequirements = s.covTypesRequirements := by
  induction l with
  | nil => intro s; rfl
  | cons y l ih => intro s; rw [List.foldl_cons]; exact ih _

theorem storyFold_covTypesTests (tid : String) (l : List String) :
    ∀ s : RTMState, (l.foldl (coverStoryStep tid) s).covTypesTests = s.covTypesTests := by
  induction l with
  | nil => intro s; rfl
  | cons y l ih => intro s; rw [List.foldl_cons]; exact ih _

theorem storyFold_covStories_monoMem (tid : String) (l : List String) :
    ∀ (s : RTMState) (y k : String), y ∈ covSet s.covStories k →
      y ∈ covSet (l.foldl (coverStoryStep tid) s).covStories k := by
  induction l with
  | nil => intro s y k h; simpa using h
  | cons z l ih =>
      intro s y k h
      rw [List.foldl_cons]
      exact ih _ y k (mem_covSet_covAdd_mono z tid h)

theorem storyFold_covStories_self (tid : String) (l : List String) :
    ∀ (s : RTMState) (y : String), y ∈ l →
      tid ∈ covSet (l.foldl (coverStoryStep tid) s).covStories y := by
  induction l with
  | nil => intro s y h; simp at h
  | cons z l ih =>
      intro s y h
      rw [List.foldl_cons]
      rcases List.mem_cons.1 h with rfl | h'
      · exact storyFold_covStories_monoMem tid l _ tid y (mem_covSet_covAdd_self _ y tid)
      · exact ih _ y h'

theorem storyFold_covStories_nodup (tid : String) (l : List String) :
    ∀ s : RTMState, (∀ p ∈ s.covStories, p.2.Nodup) →
      ∀ p ∈ (l.foldl (coverStoryStep tid) s).covStories, p.2.Nodup := by
  induction l with
  | nil => intro s h; simpa using h
  | cons y l ih =>
      intro s h
      rw [List.foldl_cons]
      exact ih _ (covAdd_nodup h y tid)

/-! ### Behaviour of addTestCase -/

theorem addTestCase_eq_error {st : RTMState} {tc : TestCase}
    (h : validateTestCase st tc = false) :
    addTestCase st tc = Except.error invalidTestCaseError := by
  unfold addTestCase
  rw [h]
  rfl

theorem addTestCase_isOk_iff (st : RTMState) (tc : TestCase) :
    (addTestCase st tc).isOk = true ↔ validateTestCase st tc = true := by
  unfold addTestCase
  by_cases h : validateTestCase st tc <;> simp [h, Except.isOk, Except.toBool]

theorem addTestCase_ok_spec {st : RTMState} {tc : TestCase} {st' : RTMState}
    (h : addTestCase st tc = Except.ok st') :
    validateTestCase st tc = true ∧
    st'.requirements = st.requirements ∧
    st'.testCases = mapSet st.testCases tc.id tc ∧
    (∀ r ∈ tc.requirements.getD [], tc.id ∈ covSet st'.covRequirements r) ∧
    (∀ y ∈ tc.userStories.getD [], tc.id ∈ covSet st'.covStories y) ∧
    tc.id ∈ covSet st'.covTypesTests tc.type := by
  by_cases hv : validateTestCase st tc
  · refine ⟨hv, ?_⟩
    unfold addTestCase at h
    rw [hv] at h
    simp only [Bool.not_true, Bool.false_eq_true, if_false, Except.ok.injEq] at h
    subst h
    constructor
    · simp only [storyFold_requirements, reqFold_requirements]
    constructor
    · simp only [storyFold_testCases, reqFold_testCases]
    refine ⟨?_, ?_, ?_⟩
    · intro r hr
      simp only [storyFold_covRequirements]
      exact reqFold_covRequirements_self tc.id _ _ r hr
    · intro y hy
      exact storyFold_covStories_self tc.id _ _ y hy
    · exact mem_covSet_covAdd_self _ tc.type tc.id
  · rw [addTestCase_eq_error (by simpa using hv)] at h
    exact absurd h (by simp)

theorem addTestCase_preserves_covNodup {st : RTMState} {tc : TestCase} {st' : RTMState}
    (h : addTestCase st tc = Except.ok st') (hn : CovNodup st) : CovNodup st' := by
  obtain ⟨h1, h2, h3, h4⟩ := hn
  by_cases hv : validateTestCase st tc
  · unfold addTestCase at h
    rw [hv] at h
    simp only [Bool.not_true, Bool.false_eq_true, if_false, Except.ok.injEq] at h
    subst h
    have hreq := reqFold_nodup tc.id (tc.requirements.getD [])
      { st with testCases := mapSet st.testCases tc.id tc } h1 h3
    refine ⟨?_, ?_, ?_, ?_⟩
    · simpa only [storyFold_covRequirements] using hreq.1
    · refine storyFold_covStories_nodup tc.id _ _ ?_
      rw [reqFold_covStories]
      exact h2
    · simpa only [storyFold_covTypesRequirements] using hreq.2
    · refine covAdd_nodup ?_ tc.type tc.id
      simpa only [storyFold_covTypesTests, reqFold_covTypesTests] using h4
  · rw [addTestCase_eq_error (by simpa using hv)] at h
    exact absurd h (by simp)

theorem validateTestCase_iff (st : RTMState) (tc : TestCase) :
    validateTestCase st tc = true ↔
      (tc.id ≠ "" ∧ tc.title ≠ "" ∧ tc.type ∈ TEST_TYPES ∧ tc.priority ∈ TEST_PRIORITIES ∧
       ∀ r ∈ tc.requirements.getD [], mapHas st.requirements r = true) := by
  have hety : "" ∉ TEST_TYPES := by decide
  have hepr : "" ∉ TEST_PRIORITIES := by decide
  unfold validateTestCase
  by_cases hid : tc.id = ""
  · simp [hid]
  by_cases hti : tc.title = ""
  · simp [hid, hti]
  by_cases hty0 : tc.type = ""
  · simp [hid, hti, hty0, hety]
  by_cases hpr0 : tc.priority = ""
  · simp [hid, hti, hty0, hpr0, hepr]
  by_cases hcty : tc.type ∈ TEST_TYPES
  · by_cases hcpr : tc.priority ∈ TEST_PRIORITIES
    · cases hr : tc.requirements with
      | none => simp [hid, hti, hty0, hpr0, hcty, hcpr, hr]
      | some reqs => simp [hid, hti, hty0, hpr0, hcty, hcpr, hr, List.all_eq_true]
    · simp [hid, hti, hty0, hpr0, hcty, hcpr]
  · simp [hid, hti, hty0, hpr0, hcty]

theorem validateTestCase_congr {st1 st2 : RTMState} (tc : TestCase)
    (h : st1.requirements = st2.requirements) :
    validateTestCase st1 tc = validateTestCase st2 tc := by
  unfold validateTestCase
  rw [h]

/-! ### Behaviour of applySuiteToTests -/

theorem mapGet_eq_none_of_not_mem {α : Type} {m : List (String × α)} {k : String}
    (h : k ∉ m.map Prod.fst) : mapGet m k = none := by
  induction m with
  | nil => rfl
  | cons p rest ih =>
      obtain ⟨k0, v0⟩ := p
      simp only [List.map_cons, List.mem_cons, not_or] at h
      have hne : k0 ≠ k := fun hh => h.1 hh.symm
      rw [mapGet_cons_ne v0 rest hne]
      exact ih h.2

theorem applyFold_mapGet (suiteId : String) (suite : Suite) (l : List (String × TestCase)) :
    ∀ acc : List (String × TestCase), (l.map Prod.fst).Nodup → ∀ k : String,
      mapGet (l.foldl
        (fun acc p =>
          if p.2.suiteId = some suiteId then mapSet acc p.1 (mergeSuiteTest p.2 suite)
          else acc) acc) k =
      (match mapGet l k with
       | some t =>
           if t.suiteId = some suiteId then some (mergeSuiteTest t suite) else mapGet acc k
       | none => mapGet acc k) := by
  induction l with
  | nil => intro acc _ k; rfl
  | cons p rest ih =>
      intro acc hnd k
      obtain ⟨k0, t0⟩ := p
      simp only [List.map_cons, List.nodup_cons] at hnd
      obtain ⟨hp, hrest⟩ := hnd
      rw [List.foldl_cons]
      by_cases hk : k0 = k
      · subst hk
        have hnone : mapGet rest k0 = none := mapGet_eq_none_of_not_mem hp
        rw [ih _ hrest k0, hnone]
        rw [mapGet_cons_self k0 t0 rest]
        show mapGet
            (if t0.suiteId = some suiteId then mapSet acc k0 (mergeSuiteTest t0 suite)
             else acc) k0 =
          (if t0.suiteId = some suiteId then some (mergeSuiteTest t0 suite)
           else mapGet acc k0)
        by_cases hc : t0.suiteId = some suiteId
        · rw [if_pos hc, if_pos hc, mapGet_mapSet_self]
        · rw [if_neg hc, if_neg hc]
      · rw [ih _ hrest k, mapGet_cons_ne t0 rest hk]
        have hacc : mapGet
            (if t0.suiteId = some suiteId then mapSet acc k0 (mergeSuiteTest t0 suite)
             else acc) k = mapGet acc k := by
          by_cases hc : t0.suiteId = some suiteId
          · rw [if_pos hc]
            exact mapGet_mapSet_ne acc _ hk
          · rw [if_neg hc]
        cases hr : mapGet rest k with
        | none => simpa using hacc
        | some t =>
            by_cases hc : t.suiteId = some suiteId
            · simp [hc]
            · simpa [hc] using hacc

theorem applySuiteToTests_err {st : RTMState} {suiteId : String}
    (h : mapGet st.suites suiteId = none) :
    applySuiteToTests st suiteId =
      Except.error ⟨"Suite " ++ suiteId ++ " not found", "SUITE_NOT_FOUND"⟩ := by
  unfold applySuiteToTests
  rw [h]

theorem applySuiteToTests_frame {st : RTMState} {suiteId : String} {st' : RTMState}
    (h : applySuiteToTests st suiteId = Except.ok st') :
    st'.requirements = st.requirements ∧ st'.userStories = st.userStories ∧
    st'.suites = st.suites ∧ st'.covRequirements = st.covRequirements ∧
    st'.covStories = st.covStories ∧ st'.covTypesRequirements = st.covTypesRequirements ∧
    st'.covTypesTests = st.covTypesTests := by
  unfold applySuiteToTests at h
  cases hg : mapGet st.suites suiteId with
  | none => rw [hg] at h; exact absurd h (by simp)
  | some suite =>
      rw [hg] at h
      simp only [Except.ok.injEq] at h
      subst h
      exact ⟨rfl, rfl, rfl, rfl, rfl, rfl, rfl⟩

theorem applySuiteToTests_testCases {st : RTMState} {suiteId : String} {suite : Suite}
    {st' : RTMState} (hs : mapGet st.suites suiteId = some suite)
    (h : applySuiteToTests st suiteId = Except.ok st')
    (hnd : (st.testCases.map Prod.fst).Nodup) {k : String} {t : TestCase}
    (ht : mapGet st.testCases k = some t) :
    mapGet st'.testCases k =
      some (if t.suiteId = some suiteId then mergeSuiteTest t suite else t) := by
  unfold applySuiteToTests at h
  rw [hs] at h
  simp only [Except.ok.injEq] at h
  subst h
  show mapGet (st.testCases.foldl _ st.testCases) k = _
  rw [applyFold_mapGet suiteId suite st.testCases st.testCases hnd k, ht]
  by_cases hc : t.suiteId = some suiteId
  · simp only [hc, if_true]
  · simp only [hc, if_false, ht]

/-! ### Behaviour of calculatePriorityCoverage -/

theorem mapGet_priorityStep_self (st : RTMState) (acc : List (String × PriorityStats))
    (q : String × Requirement) :
    mapGet (priorityStep st acc q) q.2.priority =
      some ⟨((mapGet acc q.2.priority).getD ⟨0, 0⟩).total + 1,
            if mapHas st.covRequirements q.1 then
              ((mapGet acc q.2.priority).getD ⟨0, 0⟩).covered + 1
            else ((mapGet acc q.2.priority).getD ⟨0, 0⟩).covered⟩ := by
  unfold priorityStep
  by_cases hh : mapHas acc q.2.priority
  · simp only [hh, if_true, mapGet_mapSet_self]
  · simp only [hh, Bool.false_eq_true, if_false, mapGet_mapSet_self]
    have hnone : mapGet acc q.2.priority = none := by
      unfold mapHas at hh
      cases hg : mapGet acc q.2.priority with
      | none => rfl
      | some s => rw [hg] at hh; simp at hh
    rw [hnone]
    rfl

theorem mapGet_priorityStep_ne (st : RTMState) (acc : List (String × PriorityStats))
    (q : String × Requirement) {p : String} (h : q.2.priority ≠ p) :
    mapGet (priorityStep st acc q) p = mapGet acc p := by
  unfold priorityStep
  by_cases hh : mapHas acc q.2.priority
  · simp only [hh, if_true]
    exact mapGet_mapSet_ne acc _ h
  · simp only [hh, Bool.false_eq_true, if_false]
    rw [mapGet_mapSet_ne _ _ h, mapGet_mapSet_ne _ _ h]

theorem priorityFold_mapGet_some (st : RTMState) (l : List (String × Requirement)) :
    ∀ (acc : List (String × PriorityStats)) (p : String) (s : PriorityStats),
      mapGet acc p = some s →
      mapGet (l.foldl (priorityStep st) acc) p =
        some ⟨s.total + l.countP (fun q => q.2.priority == p),
              s.covered +
                l.countP (fun q => q.2.priority == p && mapHas st.covRequirements q.1)⟩ := by
  induction l with
  | nil =>
      intro acc p s hg
      simpa using hg
  | cons q l ih =>
      intro acc p s hg
      rw [List.foldl_cons]
      by_cases hq : q.2.priority = p
      · have hb : (q.2.priority == p) = true := by simpa using hq
        have hself := mapGet_priorityStep_self st acc q
        rw [hq, hg] at hself
        simp only [Option.getD_some] at hself
        rw [ih _ p _ hself]
        have hct : List.countP (fun q => q.2.priority == p) (q :: l) =
            List.countP (fun q => q.2.priority == p) l + 1 := by
          simp [List.countP_cons, hb]
        have hcc : List.countP
              (fun q => q.2.priority == p && mapHas st.covRequirements q.1) (q :: l) =
            List.countP (fun q => q.2.priority == p && mapHas st.covRequirements q.1) l +
              (if mapHas st.covRequirements q.1 then 1 else 0) := by
          simp [List.countP_cons, hb]
        rw [hct, hcc]
        simp only [Option.some.injEq, PriorityStats.mk.injEq]
        constructor
        · omega
        · by_cases hc : mapHas st.covRequirements q.1
          · rw [if_pos hc, if_pos hc]
            omega
          · rw [if_neg hc, if_neg hc]
            omega
      · have hb : ¬((q.2.priority == p) = true) := by simpa using hq
        have hne := mapGet_priorityStep_ne st acc q hq
        rw [ih _ p s (hne.trans hg)]
        simp only [List.countP_cons, hb, Bool.false_eq_true, if_false, Bool.false_and,
          Nat.add_zero]

theorem priorityFold_mapGet_none (st : RTMState) (l : List (String × Requirement)) :
    ∀ (acc : List (String × PriorityStats)) (p : String),
      mapGet acc p = none →
      mapGet (l.foldl (priorityStep st) acc) p =
        (if l.countP (fun q => q.2.priority == p) = 0 then none
         else
           some ⟨l.countP (fun q => q.2.priority == p),
                 l.countP (fun q => q.2.priority == p && mapHas st.covRequirements q.1)⟩) := by
  induction l with
  | nil =>
      intro acc p hg
      simpa using hg
  | cons q l ih =>
      intro acc p hg
      rw [List.foldl_cons]
      by_cases hq : q.2.priority = p
      · have hb : (q.2.priority == p) = true := by simpa using hq
        have hself := mapGet_priorityStep_self st acc q
        rw [hq, hg] at hself
        have hct : List.countP (fun q => q.2.priority == p) (q :: l) =
            List.countP (fun q => q.2.priority == p) l + 1 := by
          simp [List.countP_cons, hb]
        have hne0 : ¬(List.countP (fun q => q.2.priority == p) l + 1 = 0) := by omega
        by_cases hc : mapHas st.covRequirements q.1
        · have hself2 : mapGet (priorityStep st acc q) p = some ⟨1, 1⟩ := by
            rw [hself, if_pos hc]
            rfl
          have hcc : List.countP
                (fun q => q.2.priority == p && mapHas st.covRequirements q.1) (q :: l) =
              List.countP (fun q => q.2.priority == p && mapHas st.covRequirements q.1) l +
                1 := by
            simp [List.countP_cons, hb, hc]
          rw [priorityFold_mapGet_some st l _ p _ hself2, hct, hcc, if_neg hne0]
          simp only [Option.some.injEq, PriorityStats.mk.injEq]
          constructor <;> omega
        · have hself2 : mapGet (priorityStep st acc q) p = some ⟨1, 0⟩ := by
            rw [hself, if_neg hc]
            rfl
          have hcc : List.countP
                (fun q => q.2.priority == p && mapHas st.covRequirements q.1) (q :: l) =
              List.countP
                (fun q => q.2.priority == p && mapHas st.covRequirements q.1) l := by
            simp [List.countP_cons, hb, hc]
          rw [priorityFold_mapGet_some st l _ p _ hself2, hct, hcc, if_neg hne0]
          simp only [Option.some.injEq, PriorityStats.mk.injEq]
          constructor <;> omega
      · have hb : ¬((q.2.priority == p) = true) := by simpa using hq
        have hne := mapGet_priorityStep_ne st acc q hq
        rw [ih _ p (hne.trans hg)]
        simp only [List.countP_cons, hb, Bool.false_eq_true, if_false, Bool.false_and,
          Nat.add_zero]

theorem mapGet_map_snd {α β : Type} (f : α → β) (l : List (String × α)) (k : String) :
    mapGet (l.map (fun p => (p.1, f p.2))) k = (mapGet l k).map f := by
  induction l with
  | nil => rfl
  | cons p rest ih =>
      by_cases h : p.1 = k
      · simp [mapGet, h]
      · simp [mapGet, h, ih]

theorem calculatePriorityCoverage_mapGet (st : RTMState) (p : String) :
    mapGet (calculatePriorityCoverage st) p =
      (if priorityTotal st p = 0 then none
       else some ⟨priorityTotal st p, priorityCovered st p,
                  calculatePercentage (priorityCovered st p : ℚ) (priorityTotal st p : ℚ)⟩) := by
  unfold calculatePriorityCoverage priorityTotal priorityCovered
  rw [mapGet_map_snd priorityEntryOf, priorityFold_mapGet_none st st.requirements [] p rfl]
  by_cases h : st.requirements.countP (fun q => q.2.priority == p) = 0 <;>
    simp [h, priorityEntryOf]


/-! ### Behaviour of getCriticalGaps -/

theorem mem_getCriticalGaps (st : RTMState) (g : Gap) :
    g ∈ getCriticalGaps st ↔
      ((∃ p ∈ st.requirements,
          (p.2.priority = "p0-critical" ∧ mapHas st.covRequirements p.1 = false) ∧
          g = ⟨"uncovered_critical_requirement", p.1, p.2.title⟩) ∨
       (∃ p ∈ st.requirements,
          (p.2.type = "security" ∧ hasSecurityTest st p.1 = false) ∧
          g = ⟨"security_requirement_no_security_test", p.1, p.2.title⟩)) := by
  unfold getCriticalGaps
  simp only [List.mem_append, List.mem_filterMap]
  constructor
  · rintro (⟨p, hp, hf⟩ | ⟨p, hp, hf⟩)
    · left
      split at hf
      case isTrue hcond =>
        simp only [Bool.and_eq_true, beq_iff_eq, Bool.not_eq_true'] at hcond
        simp only [Option.some.injEq] at hf
        exact ⟨p, hp, ⟨hcond.1, hcond.2⟩, hf.symm⟩
      case isFalse hcond => exact absurd hf (by simp)
    · right
      split at hf
      case isTrue hsec =>
        split at hf
        case isTrue hns =>
          simp only [beq_iff_eq] at hsec
          simp only [Bool.not_eq_true'] at hns
          simp only [Option.some.injEq] at hf
          exact ⟨p, hp, ⟨hsec, hns⟩, hf.symm⟩
        case isFalse hns => exact absurd hf (by simp)
      case isFalse hsec => exact absurd hf (by simp)
  · rintro (⟨p, hp, ⟨h1, h2⟩, rfl⟩ | ⟨p, hp, ⟨h1, h2⟩, rfl⟩)
    · left
      refine ⟨p, hp, ?_⟩
      rw [if_pos (by simp [h1, h2])]
    · right
      refine ⟨p, hp, ?_⟩
      rw [if_pos (by simp [h1]), if_pos (by simp [h2])]


/-! ### Claim theorems -/

/-- C1: core `addTestCase` fails with the typed `RTMError` carrying code
`INVALID_TEST_CASE` exactly when `validateTestCase` rejects the candidate; on
such a failure the observed state — entity store and coverage index — is
completely unchanged, and on success the record is stored and its coverage
(per requirement, per story, per test type) is recorded in the same call. -/
theorem addTestCase_throws_iff_invalid (st : RTMState) (tc : TestCase) :
    ((∃ e : RTMError, addTestCase st tc = Except.error e ∧ e.code = "INVALID_TEST_CASE") ↔
      validateTestCase st tc = false) ∧
    (validateTestCase st tc = false → addTestCaseState st tc = st) ∧
    (validateTestCase st tc = true →
      ∃ st' : RTMState, addTestCase st tc = Except.ok st' ∧
        mapGet st'.testCases tc.id = some tc ∧
        (∀ r ∈ tc.requirements.getD [], tc.id ∈ covSet st'.covRequirements r) ∧
        (∀ y ∈ tc.userStories.getD [], tc.id ∈ covSet st'.covStories y) ∧
        tc.id ∈ covSet st'.covTypesTests tc.type) := by
  refine ⟨⟨?_, ?_⟩, ?_, ?_⟩
  · rintro ⟨e, he, hcode⟩
    by_cases hv : validateTestCase st tc
    · have hok := (addTestCase_isOk_iff st tc).2 hv
      rw [he] at hok
      exact absurd hok (by simp [Except.isOk, Except.toBool])
    · simpa using hv
  · intro hv
    exact ⟨invalidTestCaseError, addTestCase_eq_error hv, rfl⟩
  · intro hv
    unfold addTestCaseState
    rw [addTestCase_eq_error hv]
  · intro hv
    cases h : addTestCase st tc with
    | error e =>
        have hok := (addTestCase_isOk_iff st tc).2 hv
        rw [h] at hok
        exact absurd hok (by simp [Except.isOk, Except.toBool])
    | ok st' =>
        obtain ⟨_, _, htc, hcovR, hcovS, hcovT⟩ := addTestCase_ok_spec h
        refine ⟨st', rfl, ?_, hcovR, hcovS, hcovT⟩
        rw [htc]
        exact mapGet_mapSet_self st.testCases tc.id tc

/-- Witness for C1: at the concrete invalid candidate `tcMissingTitle` the
hypotheses hold and the store is observed unchanged. -/
theorem addTestCase_throws_iff_invalid_witness :
    validateTestCase baseState tcMissingTitle = false ∧
    addTestCaseState baseState tcMissingTitle = baseState :=
  ⟨by decide, (addTestCase_throws_iff_invalid baseState tcMissingTitle).2.1 (by decide)⟩

/-- C2 counterexample: the concrete candidate `tcGhostStory` references the
user story `US-404`, which does not exist in the store, yet it passes
validation and is accepted by `addTestCase` — refuting the claim that such a
candidate is rejected. -/
theorem validateTestCase_accepts_ghost_story :
    validateTestCase baseState tcGhostStory = true ∧
    mapHas baseState.userStories "US-404" = false ∧
    (addTestCase baseState tcGhostStory).isOk = true :=
  ⟨by decide, by decide, by decide⟩

/-- C2 (amended): a candidate is accepted into the store iff its id and title
are truthy, its type and priority are valid enum members, and every
requirement id it references exists in the store; its user-story references
are never examined by validation. -/
theorem addTestCase_accepts_iff_requirements_exist (st : RTMState) (tc : TestCase) :
    ((addTestCase st tc).isOk = true ↔
      (tc.id ≠ "" ∧ tc.title ≠ "" ∧ tc.type ∈ TEST_TYPES ∧ tc.priority ∈ TEST_PRIORITIES ∧
       ∀ r ∈ tc.requirements.getD [], mapHas st.requirements r = true)) ∧
    (∀ us : Option (List String),
      validateTestCase st { tc with userStories := us } = validateTestCase st tc) := by
  constructor
  · rw [addTestCase_isOk_iff, validateTestCase_iff]
  · intro us
    rfl

/-- C3: on a fresh store (zero requirements, zero stories) the host-facing
`getCoverage` task computes `(0 / 0) * 100`, yielding NaN for both
percentages — contradicting the specified zero-denominator guard — while
`getCoverageStats` and `calculatePercentage` do guard and return 0. -/
theorem getCoverage_nan_on_empty_store :
    (tasksGetCoverage emptyState).1.percentage = JSNum.nan ∧
    (tasksGetCoverage emptyState).2.percentage = JSNum.nan ∧
    (getCoverageStats emptyState).1.percentage = 0 ∧
    (getCoverageStats emptyState).2.percentage = 0 ∧
    calculatePercentage 0 0 = 0 := by
  refine ⟨?_, ?_, ?_, ?_, ?_⟩ <;> rfl


/-- C4: when the suite exists and `applySuiteToTests` succeeds, every test
case registered under the suite is replaced by its merged version, whose
requirements, userStories and tags are the deduplicated concatenation of the
test case's own values followed by the suite's values (first occurrence kept,
order preserved: the dedup result is a duplicate-free sublist of the
concatenation with the same elements); in particular merging [REQ-002] with
[REQ-001] gives [REQ-002, REQ-001] and [smoke] with [regression] gives
[smoke, regression]. -/
theorem applySuiteToTests_merges (st : RTMState) (sid : String) (suite : Suite)
    (st' : RTMState) (k : String) (t : TestCase)
    (hnd : (st.testCases.map Prod.fst).Nodup)
    (hs : mapGet st.suites sid = some suite)
    (hok : applySuiteToTests st sid = Except.ok st')
    (ht : mapGet st.testCases k = some t) (hmem : t.suiteId = some sid) :
    mapGet st'.testCases k = some (mergeSuiteTest t suite) ∧
    (mergeSuiteTest t suite).requirements =
      some (dedup (t.requirements.getD [] ++ suite.requirements.getD [])) ∧
    (mergeSuiteTest t suite).userStories =
      some (dedup (t.userStories.getD [] ++ suite.userStories.getD [])) ∧
    (mergeSuiteTest t suite).tags =
      some (dedup (t.tags.getD [] ++ suite.tags.getD [])) ∧
    (∀ l : List String, (dedup l).Nodup ∧ (dedup l).Sublist l ∧
      ∀ x : String, (x ∈ dedup l ↔ x ∈ l)) ∧
    dedup (["REQ-002"] ++ ["REQ-001"]) = ["REQ-002", "REQ-001"] ∧
    dedup (["smoke"] ++ ["regression"]) = ["smoke", "regression"] := by
  refine ⟨?_, rfl, rfl, rfl, ?_, by decide, by decide⟩
  · have h := applySuiteToTests_testCases hs hok hnd ht
    rw [if_pos hmem] at h
    exact h
  · intro l
    exact ⟨dedup_nodup l, dedup_sublist l, mem_dedup l⟩

/-- Witness for C4 at the concrete suite `TS-001` over `suiteState`:
merging requirements [REQ-002] with [REQ-001] and tags [smoke] with
[regression] on test case `TC-010`. -/
theorem applySuiteToTests_merges_witness :
    (suiteState.testCases.map Prod.fst).Nodup ∧
    mapGet suiteState.suites "TS-001" = some suiteTS ∧
    applySuiteToTests suiteState "TS-001" = Except.ok suiteStateApplied ∧
    mapGet suiteState.testCases "TC-010" = some tcSmoke ∧
    tcSmoke.suiteId = some "TS-001" ∧
    mapGet suiteStateApplied.testCases "TC-010" = some (mergeSuiteTest tcSmoke suiteTS) :=
  ⟨by decide, by decide, by rfl, by decide, by decide,
   (applySuiteToTests_merges suiteState "TS-001" suiteTS suiteStateApplied "TC-010" tcSmoke
     (by decide) (by decide) (by rfl) (by decide) (by decide)).1⟩

/-- C5: the gap list contains an `uncovered_critical_requirement` entry
(with the requirement's id and title) exactly for the stored `p0-critical`
requirements without a coverage entry, and a
`security_requirement_no_security_test` entry exactly for the stored
`security` requirements whose covering set holds no security-typed test
case; once a test case linking a requirement is accepted, that requirement's
uncovered-critical gap is gone. -/
theorem getCriticalGaps_spec (st : RTMState) (rid ttl : String) :
    ((⟨"uncovered_critical_requirement", rid, ttl⟩ : Gap) ∈ getCriticalGaps st ↔
      ∃ req : Requirement, (rid, req) ∈ st.requirements ∧ req.priority = "p0-critical" ∧
        mapHas st.covRequirements rid = false ∧ req.title = ttl) ∧
    ((⟨"security_requirement_no_security_test", rid, ttl⟩ : Gap) ∈ getCriticalGaps st ↔
      ∃ req : Requirement, (rid, req) ∈ st.requirements ∧ req.type = "security" ∧
        hasSecurityTest st rid = false ∧ req.title = ttl) ∧
    (∀ (tc : TestCase) (st' : RTMState), addTestCase st tc = Except.ok st' →
      rid ∈ tc.requirements.getD [] →
      (⟨"uncovered_critical_requirement", rid, ttl⟩ : Gap) ∉ getCriticalGaps st') := by
  have hne : ("uncovered_critical_requirement" : String) ≠
      "security_requirement_no_security_test" := by decide
  refine ⟨?_, ?_, ?_⟩
  · rw [mem_getCriticalGaps]
    constructor
    · rintro (⟨p, hp, ⟨h1, h2⟩, heq⟩ | ⟨p, hp, hcond, heq⟩)
      · simp only [Gap.mk.injEq] at heq
        obtain ⟨-, h3, h4⟩ := heq
        refine ⟨p.2, ?_, h1, ?_, h4.symm⟩
        · rw [h3]
          exact hp
        · rw [h3]
          exact h2
      · simp only [Gap.mk.injEq] at heq
        exact absurd heq.1 hne
    · rintro ⟨req, hmem, h1, h2, h3⟩
      left
      refine ⟨(rid, req), hmem, ⟨h1, h2⟩, ?_⟩
      rw [h3]
  · rw [mem_getCriticalGaps]
    constructor
    · rintro (⟨p, hp, hcond, heq⟩ | ⟨p, hp, ⟨h1, h2⟩, heq⟩)
      · simp only [Gap.mk.injEq] at heq
        exact absurd heq.1 hne.symm
      · simp only [Gap.mk.injEq] at heq
        obtain ⟨-, h3, h4⟩ := heq
        refine ⟨p.2, ?_, h1, ?_, h4.symm⟩
        · rw [h3]
          exact hp
        · rw [h3]
          exact h2
    · rintro ⟨req, hmem, h1, h2, h3⟩
      right
      refine ⟨(rid, req), hmem, ⟨h1, h2⟩, ?_⟩
      rw [h3]
  · intro tc st' hok hmem hgap
    have hcov : tc.id ∈ covSet st'.covRequirements rid :=
      (addTestCase_ok_spec hok).2.2.2.1 rid hmem
    have hhas : mapHas st'.covRequirements rid = true := mem_covSet_mapHas hcov
    rw [mem_getCriticalGaps] at hgap
    rcases hgap with ⟨p, hp, ⟨h1, h2⟩, heq⟩ | ⟨p, hp, hcond, heq⟩
    · simp only [Gap.mk.injEq] at heq
      rw [← heq.2.1] at h2
      rw [hhas] at h2
      exact absurd h2 (by simp)
    · simp only [Gap.mk.injEq] at heq
      exact absurd heq.1 hne

/-- C6 counterexample: in `seededState` the p1-high requirement `REQ-003`
has an empty, merely seeded coverage entry, yet `calculatePriorityCoverage`
reports it as covered (covered = 1, 100%) — refuting the claim that only
requirements with a non-empty coverage entry count as covered. -/
theorem calculatePriorityCoverage_counts_seeded_empty :
    mapGet seededState.covRequirements "REQ-003" = some [] ∧
    (mapGet (calculatePriorityCoverage seededState) "p1-high").map
      (fun e => (e.total, e.covered)) = some (1, 1) ∧
    calculatePercentage 1 1 = 100 :=
  ⟨by decide, by decide, by norm_num [calculatePercentage]⟩

/-- C6 (amended): for each priority present among stored requirements,
`calculatePriorityCoverage` reports total = number of stored requirements of
that priority and covered = number of requirements of that priority that
HAVE a coverage entry in the index — a requirement whose entry is an empty
set (e.g. merely seeded by an existence check) IS counted as covered;
absent priorities get no entry, and the percentage is the guarded one. -/
theorem calculatePriorityCoverage_spec (st : RTMState) (p : String) :
    mapGet (calculatePriorityCoverage st) p =
      (if priorityTotal st p = 0 then none
       else some ⟨priorityTotal st p, priorityCovered st p,
                  calculatePercentage (priorityCovered st p : ℚ) (priorityTotal st p : ℚ)⟩) ∧
    priorityTotal st p = st.requirements.countP (fun q => q.2.priority == p) ∧
    priorityCovered st p =
      st.requirements.countP (fun q => q.2.priority == p && mapHas st.covRequirements q.1) :=
  ⟨calculatePriorityCoverage_mapGet st p, rfl, rfl⟩

/-- C7: a successful `applySuiteToTests` leaves the whole coverage index
unchanged: for every requirement id, story id and type, the coverage set
after the call equals the one before, even though the merge may add
requirement or story ids to a test case's lists. -/
theorem applySuiteToTests_coverage_frame (st : RTMState) (sid : String) (st' : RTMState)
    (hok : applySuiteToTests st sid = Except.ok st') :
    (∀ r : String, covSet st'.covRequirements r = covSet st.covRequirements r) ∧
    (∀ y : String, covSet st'.covStories y = covSet st.covStories y) ∧
    (∀ ty : String, covSet st'.covTypesRequirements ty = covSet st.covTypesRequirements ty) ∧
    (∀ ty : String, covSet st'.covTypesTests ty = covSet st.covTypesTests ty) ∧
    st'.covRequirements = st.covRequirements ∧ st'.covStories = st.covStories ∧
    st'.covTypesRequirements = st.covTypesRequirements ∧
    st'.covTypesTests = st.covTypesTests := by
  obtain ⟨-, -, -, h1, h2, h3, h4⟩ := applySuiteToTests_frame hok
  exact ⟨fun r => by rw [h1], fun y => by rw [h2], fun ty => by rw [h3],
    fun ty => by rw [h4], h1, h2, h3, h4⟩

/-- Witness for C7: applying suite `TS-001` over `suiteState` (a call whose
merge adds `REQ-001` to the test case's requirement list) leaves all four
coverage maps unchanged. -/
theorem applySuiteToTests_coverage_frame_witness :
    applySuiteToTests suiteState "TS-001" = Except.ok suiteStateApplied ∧
    suiteStateApplied.covRequirements = suiteState.covRequirements ∧
    suiteStateApplied.covStories = suiteState.covStories ∧
    suiteStateApplied.covTypesRequirements = suiteState.covTypesRequirements ∧
    suiteStateApplied.covTypesTests = suiteState.covTypesTests := by
  have h := applySuiteToTests_coverage_frame suiteState "TS-001" suiteStateApplied (by rfl)
  exact ⟨by rfl, h.2.2.2.2.1, h.2.2.2.2.2.1, h.2.2.2.2.2.2.1, h.2.2.2.2.2.2.2⟩


/-- C8: adding the same valid test case twice succeeds both times without
crashing, the second call leaves the store's test-case count unchanged, and
after it every coverage set containing the test case's id contains it
exactly once (set semantics, no double counting). -/
theorem addTestCase_idempotent (st : RTMState) (tc : TestCase)
    (hv : validateTestCase st tc = true) (hn : CovNodup st) :
    ∃ st1 st2 : RTMState, addTestCase st tc = Except.ok st1 ∧
      addTestCase st1 tc = Except.ok st2 ∧
      st2.testCases.length = st1.testCases.length ∧
      (∀ p ∈ st2.covRequirements, tc.id ∈ p.2 → p.2.count tc.id = 1) ∧
      (∀ p ∈ st2.covStories, tc.id ∈ p.2 → p.2.count tc.id = 1) ∧
      (∀ p ∈ st2.covTypesRequirements, tc.id ∈ p.2 → p.2.count tc.id = 1) ∧
      (∀ p ∈ st2.covTypesTests, tc.id ∈ p.2 → p.2.count tc.id = 1) := by
  cases h1 : addTestCase st tc with
  | error e =>
      have hok := (addTestCase_isOk_iff st tc).2 hv
      rw [h1] at hok
      exact absurd hok (by simp [Except.isOk, Except.toBool])
  | ok st1 =>
      have hv1 : validateTestCase st1 tc = true := by
        rw [validateTestCase_congr tc (addTestCase_ok_spec h1).2.1]
        exact hv
      cases h2 : addTestCase st1 tc with
      | error e =>
          have hok := (addTestCase_isOk_iff st1 tc).2 hv1
          rw [h2] at hok
          exact absurd hok (by simp [Except.isOk, Except.toBool])
      | ok st2 =>
          have hn1 : CovNodup st1 := addTestCase_preserves_covNodup h1 hn
          have hn2 : CovNodup st2 := addTestCase_preserves_covNodup h2 hn1
          obtain ⟨hc1, hc2, hc3, hc4⟩ := hn2
          refine ⟨st1, st2, rfl, h2, ?_, ?_, ?_, ?_, ?_⟩
          · rw [(addTestCase_ok_spec h2).2.2.1, length_mapSet]
            have hhas : mapHas st1.testCases tc.id = true := by
              rw [(addTestCase_ok_spec h1).2.2.1]
              exact mapHas_mapSet_self st.testCases tc.id tc
            rw [hhas]
            simp
          · exact fun p hp hm => List.count_eq_one_of_mem (hc1 p hp) hm
          · exact fun p hp hm => List.count_eq_one_of_mem (hc2 p hp) hm
          · exact fun p hp hm => List.count_eq_one_of_mem (hc3 p hp) hm
          · exact fun p hp hm => List.count_eq_one_of_mem (hc4 p hp) hm

/-- Witness for C8 at the concrete valid test case `tcMain` over `baseState`. -/
theorem addTestCase_idempotent_witness :
    validateTestCase baseState tcMain = true ∧ CovNodup baseState ∧
    (∃ st1 st2 : RTMState, addTestCase baseState tcMain = Except.ok st1 ∧
      addTestCase st1 tcMain = Except.ok st2 ∧
      st2.testCases.length = st1.testCases.length ∧
      (∀ p ∈ st2.covRequirements, tcMain.id ∈ p.2 → p.2.count tcMain.id = 1) ∧
      (∀ p ∈ st2.covStories, tcMain.id ∈ p.2 → p.2.count tcMain.id = 1) ∧
      (∀ p ∈ st2.covTypesRequirements, tcMain.id ∈ p.2 → p.2.count tcMain.id = 1) ∧
      (∀ p ∈ st2.covTypesTests, tcMain.id ∈ p.2 → p.2.count tcMain.id = 1)) :=
  ⟨by decide, by decide, addTestCase_idempotent baseState tcMain (by decide) (by decide)⟩

/-- C9: the existence-check tasks return exactly whether the id is in the
corresponding entity store (they are total functions of the state — they
never throw); a successful check seeds an empty coverage entry when none
exists and leaves the state untouched when one already exists; a failed
check leaves the state untouched. -/
theorem tasksValidate_spec (st : RTMState) (rid sid : String) :
    ((tasksValidateRequirement st rid).1 = mapHas st.requirements rid) ∧
    (mapHas st.requirements rid = true → mapHas st.covRequirements rid = false →
      mapGet (tasksValidateRequirement st rid).2.covRequirements rid = some []) ∧
    (mapHas st.covRequirements rid = true → (tasksValidateRequirement st rid).2 = st) ∧
    (mapHas st.requirements rid = false → (tasksValidateRequirement st rid).2 = st) ∧
    ((tasksValidateStory st sid).1 = mapHas st.userStories sid) ∧
    (mapHas st.userStories sid = true → mapHas st.covStories sid = false →
      mapGet (tasksValidateStory st sid).2.covStories sid = some []) ∧
    (mapHas st.covStories sid = true → (tasksValidateStory st sid).2 = st) ∧
    (mapHas st.userStories sid = false → (tasksValidateStory st sid).2 = st) := by
  unfold tasksValidateRequirement tasksValidateStory
  by_cases h1 : mapHas st.requirements rid <;>
    by_cases h2 : mapHas st.covRequirements rid <;>
      by_cases h3 : mapHas st.userStories sid <;>
        by_cases h4 : mapHas st.covStories sid <;>
          simp [h1, h2, h3, h4, mapGet_mapSet_self]

/-- Witness for C9: checking the stored `REQ-001` and `US-001` over
`baseState` succeeds and seeds empty coverage entries. -/
theorem tasksValidate_spec_witness :
    (tasksValidateRequirement baseState "REQ-001").1 = true ∧
    mapGet (tasksValidateRequirement baseState "REQ-001").2.covRequirements "REQ-001" =
      some [] ∧
    (tasksValidateStory baseState "US-001").1 = true ∧
    mapGet (tasksValidateStory baseState "US-001").2.covStories "US-001" = some [] := by
  have h := tasksValidate_spec baseState "REQ-001" "US-001"
  exact ⟨h.1.trans (by decide), h.2.1 (by decide) (by decide),
    h.2.2.2.2.1.trans (by decide), h.2.2.2.2.2.1 (by decide) (by decide)⟩

/-- C10: the task-level `addTestCase` stores the candidate with `automated`
forced to `true` (overwriting a caller-supplied `false`), defaults a falsy
type to `e2e` and a falsy priority to `p1-must-run` before validating, so a
candidate missing only type and priority is not rejected; on success the
stored record is exactly the enhanced one. -/
theorem tasksAddTestCase_enhances (st : RTMState) (tc : TestCase) :
    (enhanceTestCase tc).automated = true ∧
    (enhanceTestCase tc).type = (if tc.type = "" then "e2e" else tc.type) ∧
    (enhanceTestCase tc).priority =
      (if tc.priority = "" then "p1-must-run" else tc.priority) ∧
    tasksAddTestCase st tc = addTestCase st (enhanceTestCase tc) ∧
    (tc.id ≠ "" → tc.title ≠ "" → tc.type = "" → tc.priority = "" →
      (∀ r ∈ tc.requirements.getD [], mapHas st.requirements r = true) →
      (tasksAddTestCase st tc).isOk = true) ∧
    (∀ st' : RTMState, tasksAddTestCase st tc = Except.ok st' →
      mapGet st'.testCases tc.id = some (enhanceTestCase tc)) := by
  refine ⟨rfl, ?_, ?_, rfl, ?_, ?_⟩
  · by_cases h : tc.type = "" <;> simp [enhanceTestCase, h]
  · by_cases h : tc.priority = "" <;> simp [enhanceTestCase, h]
  · intro hid hti hty hpr hreq
    unfold tasksAddTestCase
    rw [addTestCase_isOk_iff, validateTestCase_iff]
    refine ⟨?_, ?_, ?_, ?_, ?_⟩
    · simpa [enhanceTestCase] using hid
    · simpa [enhanceTestCase] using hti
    · simp [enhanceTestCase, hty, TEST_TYPES]
    · simp [enhanceTestCase, hpr, TEST_PRIORITIES]
    · simpa [enhanceTestCase] using hreq
  · intro st' hok
    unfold tasksAddTestCase at hok
    have htc := (addTestCase_ok_spec hok).2.2.1
    have hid : (enhanceTestCase tc).id = tc.id := rfl
    rw [htc, hid]
    exact mapGet_mapSet_self st.testCases tc.id (enhanceTestCase tc)

/-- Witness for C10: the candidate `tcNoType` (empty type and priority,
`automated: false`) is accepted by the task and stored with the defaults and
`automated = true`. -/
theorem tasksAddTestCase_enhances_witness :
    (enhanceTestCase tcNoType).automated = true ∧
    (enhanceTestCase tcNoType).type = "e2e" ∧
    (enhanceTestCase tcNoType).priority = "p1-must-run" ∧
    (tasksAddTestCase baseState tcNoType).isOk = true := by
  have h := tasksAddTestCase_enhances baseState tcNoType
  exact ⟨h.1, h.2.1.trans (by decide), h.2.2.1.trans (by decide),
    h.2.2.2.2.1 (by decide) (by decide) (by decide) (by decide) (by decide)⟩

end RTM
